import Mathlib

/-!
Verification of the backtesting core of the `algo_trading` repository:
the signal generator (`Backtester.generate_signals`) and the trade
simulator (`Backtester.simulate_trading`) from
`src/strategy/backtester.py`, together with the indicator computations
from `src/data/indicators.py` that feed the signal generator.

Monetary quantities (Python floats) are modelled as rationals, share
counts and calendar dates as integers, and undefined (NaN) indicator
values as `Option ℚ` with the pandas semantics that any comparison
against an undefined value is false.
-/

namespace AlgoTrading

/-- Python `int(x)` applied to a non-negative-or-negative rational:
truncation toward zero. -/
def pyInt (q : ℚ) : ℤ := if q < 0 then -⌊-q⌋ else ⌊q⌋

/-- `self.transaction_cost = 0.001` in `Backtester.__init__`. -/
def transaction_cost : ℚ := 1 / 1000

/-- `self.max_position_size = 0.3` in `Backtester.__init__`. -/
def max_position_size : ℚ := 3 / 10

/-- The `portfolio` dict of `simulate_trading`. -/
structure Portfolio where
  cash : ℚ
  shares : ℤ
  total_value : ℚ
  deriving Repr, DecidableEq

/-- Trade actions recorded in the `trades` list. -/
inductive Action where
  | buy
  | sell
  deriving Repr, DecidableEq

/-- One record of the `trades` list built by `simulate_trading`. -/
structure Trade where
  date : ℤ
  action : Action
  shares : ℤ
  price : ℚ
  value : ℚ
  portfolio_value : ℚ
  deriving Repr, DecidableEq

/-- One record of the `portfolio_history` list built by `simulate_trading`. -/
structure HistoryPoint where
  date : ℤ
  portfolio_value : ℚ
  price : ℚ
  cash : ℚ
  shares : ℤ
  deriving Repr, DecidableEq

/-- One row of the `signals` DataFrame as consumed by `simulate_trading`:
a timestamp, the closing price, and the signal (1 = Buy, -1 = Sell,
0 = Hold). -/
structure SignalRow where
  date : ℤ
  price : ℚ
  signal : ℤ
  deriving Repr, DecidableEq

/-- One iteration of the `for date, row in signals.iterrows()` loop of
`simulate_trading`: computes the pre-trade valuation, records the daily
history point, and executes at most one trade.  Returns the updated
portfolio, the optional trade appended on this day, and the history
point appended on this day. -/
def simulateStep (portfolio : Portfolio) (row : SignalRow) :
    Portfolio × Option Trade × HistoryPoint :=
  let signal := row.signal
  let price := row.price
  let current_value := portfolio.cash + (portfolio.shares : ℚ) * price
  let portfolio1 : Portfolio := { portfolio with total_value := current_value }
  let hist : HistoryPoint :=
    { date := row.date, portfolio_value := current_value, price := price,
      cash := portfolio1.cash, shares := portfolio1.shares }
  if signal = 1 ∧ portfolio1.shares = 0 then
    let investment_amount := current_value * max_position_size
    let shares_to_buy : ℤ := pyInt (investment_amount / price)
    if 0 < shares_to_buy then
      let total_cost := (shares_to_buy : ℚ) * price * (1 + transaction_cost)
      if total_cost ≤ portfolio1.cash then
        ({ portfolio1 with
             cash := portfolio1.cash - total_cost,
             shares := portfolio1.shares + shares_to_buy },
         some { date := row.date, action := Action.buy, shares := shares_to_buy,
                price := price, value := total_cost,
                portfolio_value := current_value },
         hist)
      else
        (portfolio1, none, hist)
    else
      (portfolio1, none, hist)
  else if signal = -1 ∧ 0 < portfolio1.shares then
    let total_sale := (portfolio1.shares : ℚ) * price * (1 - transaction_cost)
    ({ portfolio1 with
         cash := portfolio1.cash + total_sale,
         shares := 0 },
     some { date := row.date, action := Action.sell, shares := portfolio1.shares,
            price := price, value := total_sale,
            portfolio_value := current_value },
     hist)
  else
    (portfolio1, none, hist)

/-- The simulation loop of `simulate_trading` started from an arbitrary
portfolio state, returning the trade list, the portfolio history and the
final portfolio. -/
def simulateFrom (portfolio : Portfolio) :
    List SignalRow → List Trade × List HistoryPoint × Portfolio
  | [] => ([], [], portfolio)
  | row :: rows =>
    let step := simulateStep portfolio row
    let rest := simulateFrom step.1 rows
    (step.2.1.toList ++ rest.1, step.2.2 :: rest.2.1, rest.2.2)

/-- `Backtester.simulate_trading`: runs the loop from the initial
portfolio `{cash: initial_capital, shares: 0, total_value: initial_capital}`. -/
def simulate_trading (initial_capital : ℚ) (signals : List SignalRow) :
    List Trade × List HistoryPoint × Portfolio :=
  simulateFrom
    { cash := initial_capital, shares := 0, total_value := initial_capital }
    signals

/-- Pandas comparison `a < b` where either side may be NaN: false unless
both are defined. -/
def oLT (a b : Option ℚ) : Bool :=
  match a, b with
  | some x, some y => decide (x < y)
  | _, _ => false

/-- Pandas comparison `a > b` where either side may be NaN: false unless
both are defined. -/
def oGT (a b : Option ℚ) : Bool :=
  match a, b with
  | some x, some y => decide (y < x)
  | _, _ => false

/-- `buy_condition = (signals['RSI'] < 30) & (signals['MA20'] > signals['MA50'])`. -/
def buy_condition (rsi ma20 ma50 : Option ℚ) : Bool :=
  oLT rsi (some 30) && oGT ma20 ma50

/-- `sell_condition = (signals['RSI'] > 50) | (signals['MA20'] < signals['MA50'])`. -/
def sell_condition (rsi ma20 ma50 : Option ℚ) : Bool :=
  oGT rsi (some 50) || oLT ma20 ma50

/-- The per-timestamp signal assignment of `generate_signals`: start from
0 (Hold), set 1 where the buy condition holds, then set -1 where the
sell condition holds (the later assignment overwrites). -/
def rawSignal (rsi ma20 ma50 : Option ℚ) : ℤ :=
  let s0 : ℤ := 0
  let s1 : ℤ := if buy_condition rsi ma20 ma50 then 1 else s0
  if sell_condition rsi ma20 ma50 then -1 else s1

/-- The running state of the forced time-exit walk at the end of
`generate_signals`: `in_position` and `buy_date`. -/
structure WalkState where
  in_position : Bool
  buy_date : Option ℤ
  deriving Repr, DecidableEq

/-- One iteration of the forced time-exit walk of `generate_signals`:
given the running state and the current row's date and signal, returns
the (possibly overwritten) signal for that row and the next state. -/
def walkStep (st : WalkState) (date : ℤ) (signal : ℤ) : ℤ × WalkState :=
  if signal = 1 ∧ st.in_position = false then
    (signal, { in_position := true, buy_date := some date })
  else if signal = -1 ∧ st.in_position = true then
    (signal, { in_position := false, buy_date := none })
  else if st.in_position = true ∧ st.buy_date.isSome then
    let days_held := date - st.buy_date.getD 0
    if 30 ≤ days_held then
      (-1, { in_position := false, buy_date := none })
    else
      (signal, st)
  else
    (signal, st)

/-- The forced time-exit walk over a signal row list, from an arbitrary
starting state. -/
def forcedWalkFrom (st : WalkState) : List SignalRow → List SignalRow
  | [] => []
  | row :: rows =>
    let step := walkStep st row.date row.signal
    { row with signal := step.1 } :: forcedWalkFrom step.2 rows

/-- The forced time-exit walk as run by `generate_signals`: starting
flat with no recorded entry date. -/
def applyTimeExit (rows : List SignalRow) : List SignalRow :=
  forcedWalkFrom { in_position := false, buy_date := none } rows

/-- `prices.rolling(window=w).mean()` at position `i` of the list `xs`:
undefined (NaN) while fewer than `w` observations are available,
otherwise the mean of the `w` entries ending at `i`. -/
def rollMeanAt (w : ℕ) (xs : List ℚ) (i : ℕ) : Option ℚ :=
  if i + 1 < w then none
  else some ((((List.range w).map (fun k => xs.getD (i - k) 0)).sum) / (w : ℚ))

/-- `prices.diff()` at position `i`: NaN at position 0, otherwise the
difference with the previous entry. -/
def deltaAt (xs : List ℚ) (i : ℕ) : Option ℚ :=
  if i = 0 then none else some (xs.getD i 0 - xs.getD (i - 1) 0)

/-- `delta.where(delta > 0, 0)` at position `i`: the positive price
change, with NaN (position 0) and non-positive changes replaced by 0. -/
def gainAt (xs : List ℚ) (i : ℕ) : ℚ :=
  match deltaAt xs i with
  | some d => if 0 < d then d else 0
  | none => 0

/-- `-delta.where(delta < 0, 0)` at position `i`: the magnitude of the
negative price change, with NaN and non-negative changes replaced by 0. -/
def lossAt (xs : List ℚ) (i : ℕ) : ℚ :=
  match deltaAt xs i with
  | some d => if d < 0 then -d else 0
  | none => 0

/-- The 14-period rolling mean of gains at position `i`. -/
def gainMeanAt (xs : List ℚ) (i : ℕ) : Option ℚ :=
  if i + 1 < 14 then none
  else some ((((List.range 14).map (fun k => gainAt xs (i - k))).sum) / 14)

/-- The 14-period rolling mean of losses at position `i`. -/
def lossMeanAt (xs : List ℚ) (i : ℕ) : Option ℚ :=
  if i + 1 < 14 then none
  else some ((((List.range 14).map (fun k => lossAt xs (i - k))).sum) / 14)

/-- `TechnicalIndicators.calculate_rsi` at position `i`:
`rsi = 100 - 100/(1 + gain/loss)`.  With float semantics, when the loss
mean is 0 the ratio is `inf` (so rsi = 100) if the gain mean is
positive, and NaN (so rsi is NaN) if both are 0. -/
def rsiAt (xs : List ℚ) (i : ℕ) : Option ℚ :=
  match gainMeanAt xs i, lossMeanAt xs i with
  | some g, some l =>
    if l = 0 then (if g = 0 then none else some 100)
    else some (100 - 100 / (1 + g / l))
  | _, _ => none

/-- `Backtester.generate_signals`: from dated closing prices, compute
RSI(14), MA20 and MA50, assign the per-timestamp raw signal, and run
the forced time-exit walk.  One output row per input row. -/
def generate_signals (data : List (ℤ × ℚ)) : List SignalRow :=
  let prices := data.map Prod.snd
  let raw := (List.range data.length).map (fun i =>
    let entry := data.getD i (0, 0)
    { date := entry.1, price := entry.2,
      signal := rawSignal (rsiAt prices i) (rollMeanAt 20 prices i)
        (rollMeanAt 50 prices i) : SignalRow })
  applyTimeExit raw

/-- C1: the claim asserts the final ledger of the two-day scenario has
`total_value = 102937`; in fact `simulate_trading` sets `total_value`
to the valuation computed *before* the day's trade and never refreshes
it after the Sell, so the final `total_value` is 102970. -/
theorem c1_counterexample :
    (simulate_trading 100000
        [{ date := 1, price := 100, signal := 1 },
         { date := 2, price := 110, signal := -1 }]).2.2.total_value ≠ 102937 := by
  simp only [simulate_trading, simulateFrom, simulateStep]
  norm_num [pyInt, transaction_cost, max_position_size]

/-- C1 (amended): the two-day scenario executes a Buy of 300 shares at
total cost 30030 leaving cash 69970, then a Sell with proceeds 32967,
and returns a final ledger with cash = 102937, shares = 0 and
total_value = 102970 (the pre-trade valuation of the last day, which is
not refreshed after the Sell executes). -/
theorem c1_concrete_scenario :
    simulate_trading 100000
        [{ date := 1, price := 100, signal := 1 },
         { date := 2, price := 110, signal := -1 }] =
      ([{ date := 1, action := Action.buy, shares := 300, price := 100,
          value := 30030, portfolio_value := 100000 },
        { date := 2, action := Action.sell, shares := 300, price := 110,
          value := 32967, portfolio_value := 102970 }],
       [{ date := 1, portfolio_value := 100000, price := 100, cash := 100000,
          shares := 0 },
        { date := 2, portfolio_value := 102970, price := 110, cash := 69970,
          shares := 300 }],
       { cash := 102937, shares := 0, total_value := 102970 }) := by
  simp only [simulate_trading, simulateFrom, simulateStep]
  norm_num [pyInt, transaction_cost, max_position_size]

/-- C5: at every timestamp with defined indicator values, the raw
per-timestamp signal equals: Sell (-1) if RSI > 50 or MA20 < MA50,
else Buy (1) if RSI < 30 and MA20 > MA50, else Hold (0).  The Sell
condition is tested first, so it would take precedence wherever both
conditions held. -/
theorem c5_signal_rule (r m20 m50 : ℚ) :
    rawSignal (some r) (some m20) (some m50) =
      if 50 < r ∨ m20 < m50 then -1
      else if r < 30 ∧ m50 < m20 then 1
      else 0 := by
  simp only [rawSignal, buy_condition, sell_condition, oLT, oGT]
  by_cases h1 : 50 < r <;> by_cases h2 : m20 < m50 <;>
    by_cases h3 : r < 30 <;> by_cases h4 : m50 < m20 <;>
      simp [h1, h2, h3, h4]

/-- C10: in the forced time-exit walk, a raw Buy signal arriving while
already in position leaves the state untouched (no new position, entry
date not reset) when fewer than 30 days have elapsed, and is itself
overwritten to Sell (returning the state to flat) when 30 or more days
have elapsed since the recorded entry. -/
theorem c10_buy_while_in_position (bd date : ℤ) :
    (¬30 ≤ date - bd →
      walkStep { in_position := true, buy_date := some bd } date 1 =
        (1, { in_position := true, buy_date := some bd })) ∧
    (30 ≤ date - bd →
      walkStep { in_position := true, buy_date := some bd } date 1 =
        (-1, { in_position := false, buy_date := none })) := by
  constructor <;> intro h <;> simp [walkStep, h]

/-- Witness for `c10_buy_while_in_position`: with entry date 0, a Buy
signal on day 10 is kept and the state unchanged, while a Buy signal on
day 40 is overwritten to Sell and the state returns to flat. -/
theorem c10_buy_while_in_position_witness :
    walkStep { in_position := true, buy_date := some 0 } 10 1 =
        (1, { in_position := true, buy_date := some 0 }) ∧
      walkStep { in_position := true, buy_date := some 0 } 40 1 =
        (-1, { in_position := false, buy_date := none }) :=
  ⟨(c10_buy_while_in_position 0 10).1 (by decide),
   (c10_buy_while_in_position 0 40).2 (by decide)⟩

/-- On a Hold row, the simulator only refreshes `total_value` and
records the history point; no trade occurs. -/
lemma simulateStep_hold (p : Portfolio) (row : SignalRow) (h : row.signal = 0) :
    simulateStep p row =
      ({ p with total_value := p.cash + (p.shares : ℚ) * row.price }, none,
       { date := row.date, portfolio_value := p.cash + (p.shares : ℚ) * row.price,
         price := row.price, cash := p.cash, shares := p.shares }) := by
  simp [simulateStep, h]

/-- Running the loop over an all-Hold series from a flat portfolio whose
`total_value` field equals its cash produces no trades and returns the
portfolio unchanged. -/
lemma simulateFrom_all_hold (rows : List SignalRow) :
    ∀ p : Portfolio, p.shares = 0 → p.total_value = p.cash →
      (∀ r ∈ rows, r.signal = 0) →
      (simulateFrom p rows).1 = [] ∧ (simulateFrom p rows).2.2 = p := by
  induction rows with
  | nil => intro p _ _ _; simp [simulateFrom]
  | cons row rows ih =>
    intro p hs htv hall
    have hrow : row.signal = 0 := hall row (List.mem_cons_self row rows)
    have hstep := simulateStep_hold p row hrow
    have hnext : (∀ r ∈ rows, r.signal = 0) := fun r hr => hall r (List.mem_cons_of_mem row hr)
    have hp1 : ({ p with total_value := p.cash + (p.shares : ℚ) * row.price } : Portfolio) = p := by
      cases p
      simp_all
    rw [show (simulateFrom p (row :: rows)) =
        ((simulateStep p row).2.1.toList ++ (simulateFrom (simulateStep p row).1 rows).1,
         (simulateStep p row).2.2 :: (simulateFrom (simulateStep p row).1 rows).2.1,
         (simulateFrom (simulateStep p row).1 rows).2.2) from rfl]
    rw [hstep]
    simp only [hp1]
    have := ih p hs htv hnext
    simpa using this

/-- C9: a signal series consisting entirely of Hold signals produces an
empty trade list, and the final ledger keeps cash equal to the initial
capital, zero shares, and total_value equal to the initial capital,
whatever the prices in the series. -/
theorem c9_all_hold_round_trip (cap : ℚ) (rows : List SignalRow)
    (hall : ∀ r ∈ rows, r.signal = 0) :
    (simulate_trading cap rows).1 = [] ∧
    (simulate_trading cap rows).2.2.cash = cap ∧
    (simulate_trading cap rows).2.2.shares = 0 ∧
    (simulate_trading cap rows).2.2.total_value = cap := by
  have h := simulateFrom_all_hold rows
    { cash := cap, shares := 0, total_value := cap } rfl rfl hall
  refine ⟨h.1, ?_, ?_, ?_⟩ <;> rw [simulate_trading, h.2]

/-- Witness for `c9_all_hold_round_trip`: a two-day all-Hold series with
moving prices leaves the ledger at the initial capital of 5000. -/
theorem c9_all_hold_round_trip_witness :
    (simulate_trading 5000
        [{ date := 0, price := 7, signal := 0 },
         { date := 1, price := 9, signal := 0 }]).1 = [] ∧
    (simulate_trading 5000
        [{ date := 0, price := 7, signal := 0 },
         { date := 1, price := 9, signal := 0 }]).2.2.cash = 5000 ∧
    (simulate_trading 5000
        [{ date := 0, price := 7, signal := 0 },
         { date := 1, price := 9, signal := 0 }]).2.2.shares = 0 ∧
    (simulate_trading 5000
        [{ date := 0, price := 7, signal := 0 },
         { date := 1, price := 9, signal := 0 }]).2.2.total_value = 5000 :=
  c9_all_hold_round_trip 5000
    [{ date := 0, price := 7, signal := 0 }, { date := 1, price := 9, signal := 0 }]
    (by decide)

/-- C8: a Buy signal in the Flat state whose computed share count is
zero, or whose total cost exceeds the available cash, is a silent
no-op: the step function returns normally with no trade appended, cash
and shares unchanged (only the `total_value` mark is refreshed), and
the position remains flat. -/
theorem c8_degenerate_buy_noop (p : Portfolio) (row : SignalRow)
    (hsig : row.signal = 1) (hflat : p.shares = 0) (_hpr : 0 < row.price)
    (hbad :
      pyInt ((p.cash + (p.shares : ℚ) * row.price) * max_position_size / row.price) = 0 ∨
      p.cash <
        (pyInt ((p.cash + (p.shares : ℚ) * row.price) * max_position_size / row.price) : ℚ) *
          row.price * (1 + transaction_cost)) :
    simulateStep p row =
      ({ p with total_value := p.cash + (p.shares : ℚ) * row.price }, none,
       { date := row.date, portfolio_value := p.cash + (p.shares : ℚ) * row.price,
         price := row.price, cash := p.cash, shares := p.shares }) := by
  rw [hflat] at hbad
  simp only [Int.cast_zero, zero_mul, add_zero] at hbad
  rcases hbad with h0 | hcash
  · simp [simulateStep, hsig, hflat, h0]
  · simp only [simulateStep, hsig, hflat]
    by_cases hpos : 0 < pyInt (p.cash * max_position_size / row.price)
    · simp [hpos, not_le.mpr hcash]
    · simp [hpos]

/-- Witness for `c8_degenerate_buy_noop`: with cash 100 and price 1000,
the investable amount 30 buys zero shares, so a Buy signal is silently
dropped. -/
theorem c8_degenerate_buy_noop_witness :
    simulateStep { cash := 100, shares := 0, total_value := 100 }
        { date := 0, price := 1000, signal := 1 } =
      ({ cash := 100, shares := 0, total_value := 100 + ((0 : ℤ) : ℚ) * 1000 },
       none,
       { date := 0, portfolio_value := 100 + ((0 : ℤ) : ℚ) * 1000, price := 1000,
         cash := 100, shares := 0 }) :=
  c8_degenerate_buy_noop { cash := 100, shares := 0, total_value := 100 }
    { date := 0, price := 1000, signal := 1 } rfl rfl (by norm_num)
    (Or.inl (by norm_num [pyInt, max_position_size]))

/-- C2: every iteration appends exactly one history point (one per input
row); the history point carries the valuation computed from the
previous day's cash and shares against today's price, before the day's
signal is evaluated; and a Buy executed on the same day is sized from
that same pre-trade value (`shares = int(value * max_position_size / price)`
with the value taken before the Buy is applied). -/
theorem c2_pretrade_valuation :
    (∀ (p : Portfolio) (rows : List SignalRow),
        (simulateFrom p rows).2.1.length = rows.length) ∧
    (∀ (p : Portfolio) (row : SignalRow),
        (simulateStep p row).2.2 =
          { date := row.date, portfolio_value := p.cash + (p.shares : ℚ) * row.price,
            price := row.price, cash := p.cash, shares := p.shares }) ∧
    (∀ (p : Portfolio) (row : SignalRow) (t : Trade),
        p.shares = 0 → row.signal = 1 → (simulateStep p row).2.1 = some t →
        t.shares =
          pyInt ((p.cash + (p.shares : ℚ) * row.price) * max_position_size / row.price) ∧
        t.portfolio_value = p.cash + (p.shares : ℚ) * row.price) := by
  refine ⟨?_, ?_, ?_⟩
  · intro p rows
    induction rows generalizing p with
    | nil => simp [simulateFrom]
    | cons row rows ih => simp [simulateFrom, ih]
  · intro p row
    simp only [simulateStep]
    split_ifs <;> rfl
  · intro p row t hflat hsig hsome
    simp [simulateStep, hsig, hflat] at hsome
    split_ifs at hsome with h1 h2
    · simp only [Option.some.injEq] at hsome
      rw [← hsome]
      exact ⟨by simp [hflat], by simp [hflat]⟩

/-- Witness for `c2_pretrade_valuation`: on the first day of the
concrete scenario the executed Buy of 300 shares is sized from the
pre-trade value 100000. -/
theorem c2_pretrade_valuation_witness :
    ({ date := 1, action := Action.buy, shares := 300, price := 100,
       value := 30030, portfolio_value := 100000 } : Trade).shares =
      pyInt ((100000 + ((0 : ℤ) : ℚ) * 100) * max_position_size / 100) ∧
    ({ date := 1, action := Action.buy, shares := 300, price := 100,
       value := 30030, portfolio_value := 100000 } : Trade).portfolio_value =
      100000 + ((0 : ℤ) : ℚ) * 100 :=
  c2_pretrade_valuation.2.2 { cash := 100000, shares := 0, total_value := 100000 }
    { date := 1, price := 100, signal := 1 } _ rfl rfl
    (by norm_num [simulateStep, pyInt, transaction_cost, max_position_size])

/-- The history point recorded by a step always carries the pre-trade
cash, shares and valuation. -/
lemma simulateStep_hist (p : Portfolio) (row : SignalRow) :
    (simulateStep p row).2.2 =
      { date := row.date, portfolio_value := p.cash + (p.shares : ℚ) * row.price,
        price := row.price, cash := p.cash, shares := p.shares } := by
  simp only [simulateStep]
  split_ifs <;> rfl

/-- A single step preserves non-negative cash and shares when the day's
price is positive. -/
lemma simulateStep_nonneg (p : Portfolio) (row : SignalRow)
    (hc : 0 ≤ p.cash) (hs : 0 ≤ p.shares) (hpr : 0 < row.price) :
    0 ≤ (simulateStep p row).1.cash ∧ 0 ≤ (simulateStep p row).1.shares := by
  simp only [simulateStep]
  split_ifs with h1 h2 h3 h4
  · refine ⟨?_, ?_⟩
    · simpa using sub_nonneg.mpr h3
    · have : (0 : ℤ) ≤ pyInt ((p.cash + (p.shares : ℚ) * row.price)
          * max_position_size / row.price) := le_of_lt h2
      simpa using add_nonneg hs this
  · exact ⟨hc, hs⟩
  · exact ⟨hc, hs⟩
  · refine ⟨?_, ?_⟩
    · have hsq : (0 : ℚ) ≤ (p.shares : ℚ) := by exact_mod_cast hs
      have hsale : (0 : ℚ) ≤ (p.shares : ℚ) * row.price * (1 - transaction_cost) :=
        mul_nonneg (mul_nonneg hsq (le_of_lt hpr)) (by norm_num [transaction_cost])
      simpa using add_nonneg hc hsale
    · simp
  · exact ⟨hc, hs⟩

/-- The loop preserves non-negative cash and shares, for the final ledger
and every recorded history point. -/
lemma simulateFrom_nonneg (rows : List SignalRow) :
    ∀ p : Portfolio, 0 ≤ p.cash → 0 ≤ p.shares →
      (∀ r ∈ rows, 0 < r.price) →
      (0 ≤ (simulateFrom p rows).2.2.cash ∧ 0 ≤ (simulateFrom p rows).2.2.shares) ∧
      (∀ h ∈ (simulateFrom p rows).2.1, 0 ≤ h.cash ∧ 0 ≤ h.shares) := by
  induction rows with
  | nil => intro p hc hs _; exact ⟨⟨hc, hs⟩, by simp [simulateFrom]⟩
  | cons row rows ih =>
    intro p hc hs hpos
    have hpr : 0 < row.price := hpos row (List.mem_cons_self row rows)
    have hstep := simulateStep_nonneg p row hc hs hpr
    have hrest := ih (simulateStep p row).1 hstep.1 hstep.2
      (fun r hr => hpos r (List.mem_cons_of_mem row hr))
    refine ⟨?_, ?_⟩
    · simpa [simulateFrom] using hrest.1
    · intro h hh
      simp only [simulateFrom, List.mem_cons] at hh
      rcases hh with hh | hh
      · rw [hh, simulateStep_hist]
        exact ⟨hc, hs⟩
      · exact hrest.2 h hh

/-- C3: with a non-negative initial capital and strictly positive
prices, the ledger keeps `cash ≥ 0` and `shares ≥ 0` after every
simulated day: the final ledger is non-negative and so is the ledger
snapshot recorded in every history point. -/
theorem c3_ledger_nonneg (cap : ℚ) (rows : List SignalRow)
    (hcap : 0 ≤ cap) (hpos : ∀ r ∈ rows, 0 < r.price) :
    (0 ≤ (simulate_trading cap rows).2.2.cash ∧
     0 ≤ (simulate_trading cap rows).2.2.shares) ∧
    (∀ h ∈ (simulate_trading cap rows).2.1, 0 ≤ h.cash ∧ 0 ≤ h.shares) :=
  simulateFrom_nonneg rows
    { cash := cap, shares := 0, total_value := cap } hcap le_rfl hpos

/-- Witness for `c3_ledger_nonneg`: the two-day Buy/Sell scenario keeps
cash and shares non-negative throughout. -/
theorem c3_ledger_nonneg_witness :
    (0 ≤ (simulate_trading 100000
        [{ date := 1, price := 100, signal := 1 },
         { date := 2, price := 50, signal := -1 }]).2.2.cash ∧
     0 ≤ (simulate_trading 100000
        [{ date := 1, price := 100, signal := 1 },
         { date := 2, price := 50, signal := -1 }]).2.2.shares) ∧
    (∀ h ∈ (simulate_trading 100000
        [{ date := 1, price := 100, signal := 1 },
         { date := 2, price := 50, signal := -1 }]).2.1,
       0 ≤ h.cash ∧ 0 ≤ h.shares) :=
  c3_ledger_nonneg 100000
    [{ date := 1, price := 100, signal := 1 },
     { date := 2, price := 50, signal := -1 }]
    (by norm_num)
    (by intro r hr; simp only [List.mem_cons, List.not_mem_nil, or_false] at hr;
        rcases hr with hr | hr <;> rw [hr] <;> norm_num)

/-- Unfolding equation for the loop on a cons cell. -/
lemma simulateFrom_cons (p : Portfolio) (row : SignalRow) (rows : List SignalRow) :
    simulateFrom p (row :: rows) =
      ((simulateStep p row).2.1.toList ++ (simulateFrom (simulateStep p row).1 rows).1,
       (simulateStep p row).2.2 :: (simulateFrom (simulateStep p row).1 rows).2.1,
       (simulateFrom (simulateStep p row).1 rows).2.2) := rfl

/-- A step either trades nothing and keeps cash and shares, or records a
Buy of a positive quantity from a flat position, or records a Sell of
the entire positive holding. -/
lemma simulateStep_cases (p : Portfolio) (row : SignalRow) :
    ((simulateStep p row).2.1 = none ∧ (simulateStep p row).1.shares = p.shares ∧
       (simulateStep p row).1.cash = p.cash) ∨
    (∃ t, (simulateStep p row).2.1 = some t ∧ t.action = Action.buy ∧ 0 < t.shares ∧
       p.shares = 0 ∧ (simulateStep p row).1.shares = t.shares) ∨
    (∃ t, (simulateStep p row).2.1 = some t ∧ t.action = Action.sell ∧
       t.shares = p.shares ∧ 0 < p.shares ∧ (simulateStep p row).1.shares = 0) := by
  simp only [simulateStep]
  split_ifs with h1 h2 h3 h4
  · exact Or.inr (Or.inl ⟨_, rfl, rfl, h2, h1.2, by simp [h1.2]⟩)
  · exact Or.inl ⟨rfl, rfl, rfl⟩
  · exact Or.inl ⟨rfl, rfl, rfl⟩
  · exact Or.inr (Or.inr ⟨_, rfl, rfl, rfl, h4.2, rfl⟩)
  · exact Or.inl ⟨rfl, rfl, rfl⟩

/-- A well-formed trade sequence from a holding of `s` shares to a
holding of `z` shares: a Buy of a positive quantity may occur only from
a flat holding and leaves its quantity held, a Sell may occur only for
the exact currently-held positive quantity and returns the holding to
zero.  `TradeSeq 0 ts z` therefore says `ts` strictly alternates
Buy, Sell, Buy, ... starting with a Buy, every Sell fully closes the
quantity bought, and `z` (0 or the last Buy's quantity) is what remains
held. -/
inductive TradeSeq : ℤ → List Trade → ℤ → Prop where
  | nil (s : ℤ) : TradeSeq s [] s
  | buy (t : Trade) (ts : List Trade) (z : ℤ) :
      t.action = Action.buy → 0 < t.shares → TradeSeq t.shares ts z →
      TradeSeq 0 (t :: ts) z
  | sell (t : Trade) (ts : List Trade) (s z : ℤ) :
      t.action = Action.sell → t.shares = s → 0 < s → TradeSeq 0 ts z →
      TradeSeq s (t :: ts) z

/-- The loop from any portfolio produces a well-formed trade sequence
from its current holding to its final holding. -/
lemma simulateFrom_tradeSeq (rows : List SignalRow) :
    ∀ p : Portfolio,
      TradeSeq p.shares (simulateFrom p rows).1 (simulateFrom p rows).2.2.shares := by
  induction rows with
  | nil => intro p; exact TradeSeq.nil p.shares
  | cons row rows ih =>
    intro p
    have hrest := ih (simulateStep p row).1
    rw [simulateFrom_cons]
    rcases simulateStep_cases p row with ⟨hn, hsh, _⟩ |
        ⟨t, hsome, hact, htpos, hflat, hsh⟩ | ⟨t, hsome, hact, hshares, hpos, hsh⟩
    · rw [hn]
      simp only [Option.toList_none, List.nil_append]
      rw [hsh] at hrest
      exact hrest
    · rw [hsome]
      simp only [Option.toList_some, List.singleton_append]
      rw [hflat]
      rw [hsh] at hrest
      exact TradeSeq.buy t _ _ hact htpos hrest
    · rw [hsome]
      simp only [Option.toList_some, List.singleton_append]
      rw [hsh] at hrest
      exact TradeSeq.sell t _ p.shares _ hact hshares hpos hrest

/-- C7: for every initial capital and signal series, the trade list of
`simulate_trading` is a well-formed alternation starting from a flat
holding: Buys of positive quantity only from flat, each followed (if at
all) by a Sell of exactly the bought quantity (full close, no partial
exit, no shorting), ending at the final ledger's holding. -/
theorem c7_trade_alternation (cap : ℚ) (rows : List SignalRow) :
    TradeSeq 0 (simulate_trading cap rows).1
      (simulate_trading cap rows).2.2.shares :=
  simulateFrom_tradeSeq rows { cash := cap, shares := 0, total_value := cap }

/-- While holding a position, a non-Sell signal day triggers no trade:
only the `total_value` mark is refreshed. -/
lemma simulateStep_no_trade_holding (p : Portfolio) (row : SignalRow)
    (hsig : row.signal ≠ -1) (hp : 0 < p.shares) :
    simulateStep p row =
      ({ p with total_value := p.cash + (p.shares : ℚ) * row.price }, none,
       { date := row.date, portfolio_value := p.cash + (p.shares : ℚ) * row.price,
         price := row.price, cash := p.cash, shares := p.shares }) := by
  have h1 : ¬(row.signal = 1 ∧ p.shares = 0) := by
    rintro ⟨-, h0⟩
    rw [h0] at hp
    exact lt_irrefl 0 hp
  have h2 : ¬(row.signal = -1 ∧ 0 < p.shares) := fun h => hsig h.1
  simp [simulateStep, h1, h2]

/-- A Sell signal while holding liquidates the entire position. -/
lemma simulateStep_sell (p : Portfolio) (row : SignalRow)
    (hsig : row.signal = -1) (hp : 0 < p.shares) :
    simulateStep p row =
      ({ cash := p.cash + (p.shares : ℚ) * row.price * (1 - transaction_cost),
         shares := 0, total_value := p.cash + (p.shares : ℚ) * row.price },
       some { date := row.date, action := Action.sell, shares := p.shares,
              price := row.price,
              value := (p.shares : ℚ) * row.price * (1 - transaction_cost),
              portfolio_value := p.cash + (p.shares : ℚ) * row.price },
       { date := row.date, portfolio_value := p.cash + (p.shares : ℚ) * row.price,
         price := row.price, cash := p.cash, shares := p.shares }) := by
  have h1 : ¬(row.signal = 1 ∧ p.shares = 0) := by
    rintro ⟨hs, -⟩
    rw [hsig] at hs
    exact absurd hs (by decide)
  simp [simulateStep, h1, hsig, hp]

/-- While in position before the 30-day expiry, a non-Sell signal leaves
the walk state and the signal unchanged. -/
lemma walkStep_holding_no_exit (bd d s : ℤ) (hs : s ≠ -1) (hd : ¬30 ≤ d - bd) :
    walkStep { in_position := true, buy_date := some bd } d s =
      (s, { in_position := true, buy_date := some bd }) := by
  simp [walkStep, hs, hd]

/-- While in position on a day at least 30 days past the entry date, the
walk emits Sell and returns to flat, whatever the day's signal. -/
lemma walkStep_holding_exit (bd d s : ℤ) (hd : 30 ≤ d - bd) :
    walkStep { in_position := true, buy_date := some bd } d s =
      (-1, { in_position := false, buy_date := none }) := by
  by_cases hs : s = -1
  · simp [walkStep, hs]
  · simp [walkStep, hs, hd]

/-- C4 (amended): if the walk is in a position entered on date `D`, the
simulator holds a positive quantity, no natural Sell signal occurs
before the first day at least 30 days past `D`, then the first trade
the simulator emits is the full liquidation on that first expiry day —
which is the first day with `(date - D) ≥ 30` present in the series,
not necessarily on or before `D + 30`. -/
theorem c4_forced_exit_first_expiry (D : ℤ) (pre : List SignalRow) :
    ∀ (p : Portfolio) (r : SignalRow) (post : List SignalRow),
      0 < p.shares →
      (∀ q ∈ pre, q.signal ≠ -1 ∧ ¬30 ≤ q.date - D) →
      30 ≤ r.date - D →
      ((simulateFrom p (forcedWalkFrom { in_position := true, buy_date := some D }
          (pre ++ r :: post))).1).head? =
        some { date := r.date, action := Action.sell, shares := p.shares,
               price := r.price,
               value := (p.shares : ℚ) * r.price * (1 - transaction_cost),
               portfolio_value := p.cash + (p.shares : ℚ) * r.price } := by
  induction pre with
  | nil =>
    intro p r post hp _ hr
    rw [List.nil_append]
    rw [show forcedWalkFrom { in_position := true, buy_date := some D } (r :: post) =
        { r with signal := (walkStep { in_position := true, buy_date := some D }
            r.date r.signal).1 } ::
          forcedWalkFrom (walkStep { in_position := true, buy_date := some D }
            r.date r.signal).2 post from rfl]
    rw [walkStep_holding_exit D r.date r.signal hr]
    rw [simulateFrom_cons]
    rw [simulateStep_sell p { r with signal := -1 } rfl hp]
    rfl
  | cons q pre ih =>
    intro p r post hp hpre hr
    have hq := hpre q (List.mem_cons_self q pre)
    rw [List.cons_append]
    rw [show forcedWalkFrom { in_position := true, buy_date := some D }
        (q :: (pre ++ r :: post)) =
        { q with signal := (walkStep { in_position := true, buy_date := some D }
            q.date q.signal).1 } ::
          forcedWalkFrom (walkStep { in_position := true, buy_date := some D }
            q.date q.signal).2 (pre ++ r :: post) from rfl]
    rw [walkStep_holding_no_exit D q.date q.signal hq.1 hq.2]
    rw [simulateFrom_cons]
    rw [simulateStep_no_trade_holding p
      { q with signal := q.signal } (by simpa using hq.1) (by simpa using hp)]
    simpa using ih { p with total_value := p.cash + (p.shares : ℚ) * q.price } r post
      (by simpa using hp) (fun x hx => hpre x (List.mem_cons_of_mem q hx)) hr

/-- Witness for `c4_forced_exit_first_expiry`: holding 10 shares entered
on day 0, with an uneventful day 5 and the next trading day only on day
35, the first emitted trade is the forced liquidation on day 35. -/
theorem c4_forced_exit_first_expiry_witness :
    ((simulateFrom { cash := 1000, shares := 10, total_value := 2000 }
        (forcedWalkFrom { in_position := true, buy_date := some 0 }
          ([{ date := 5, price := 50, signal := 0 }] ++
            { date := 35, price := 50, signal := 0 } :: []))).1).head? =
      some { date := 35, action := Action.sell, shares := 10, price := 50,
             value := ((10 : ℤ) : ℚ) * 50 * (1 - transaction_cost),
             portfolio_value := 1000 + ((10 : ℤ) : ℚ) * 50 } :=
  c4_forced_exit_first_expiry 0 [{ date := 5, price := 50, signal := 0 }]
    { cash := 1000, shares := 10, total_value := 2000 }
    { date := 35, price := 50, signal := 0 } [] (by decide) (by decide) (by decide)

/-- C4 (counterexample): a position opened on day 0 with no natural Sell
afterwards is closed by the forced exit only on day 40 — the first
trading day at least 30 days past entry — which is after day
`D + 30 = 30`, refuting "a Sell trade on or before day D+30". -/
theorem c4_counterexample :
    (simulate_trading 100000 (applyTimeExit
        [{ date := 0, price := 100, signal := 1 },
         { date := 40, price := 100, signal := 0 }])).1 =
      [{ date := 0, action := Action.buy, shares := 300, price := 100,
         value := 30030, portfolio_value := 100000 },
       { date := 40, action := Action.sell, shares := 300, price := 100,
         value := 29970, portfolio_value := 99970 }] ∧
    ¬((40 : ℤ) ≤ 0 + 30) := by
  constructor
  · simp only [applyTimeExit, forcedWalkFrom, walkStep, simulate_trading,
      simulateFrom, simulateStep]
    norm_num [pyInt, transaction_cost, max_position_size]
  · decide

/-- The forced time-exit walk never adds or removes rows. -/
lemma forcedWalkFrom_length (rows : List SignalRow) :
    ∀ st : WalkState, (forcedWalkFrom st rows).length = rows.length := by
  induction rows with
  | nil => intro st; rfl
  | cons row rows ih =>
    intro st
    simp only [forcedWalkFrom, List.length_cons, ih]

/-- C6 (counterexample): for the three-day price series 1, 2, 3 every
timestamp is in the indicator warm-up (RSI(14), MA20 and MA50 are all
undefined), yet `generate_signals` emits one row per input timestamp
instead of dropping them — the first warm-up row is present with a Hold
signal. -/
theorem c6_counterexample :
    (generate_signals [(0, 1), (1, 2), (2, 3)]).length = 3 ∧
    (generate_signals [(0, 1), (1, 2), (2, 3)]).head? =
      some { date := 0, price := 1, signal := 0 } ∧
    rsiAt [1, 2, 3] 0 = none ∧
    rollMeanAt 20 [1, 2, 3] 0 = none ∧
    rollMeanAt 50 [1, 2, 3] 0 = none := by
  refine ⟨?_, ?_, ?_, ?_, ?_⟩ <;>
    simp [generate_signals, applyTimeExit, forcedWalkFrom, walkStep, rawSignal,
      buy_condition, sell_condition, oLT, oGT, rsiAt, gainMeanAt, lossMeanAt,
      rollMeanAt, List.range_succ]

/-- C6 (amended): no warm-up rows are dropped: the signal series has one
entry per input timestamp; wherever RSI is undefined and MA20 or MA50
is undefined, both strategy conditions are false and the raw signal is
Hold; and during the first 13 timestamps all three indicators are
undefined. -/
theorem c6_no_rows_dropped :
    (∀ data : List (ℤ × ℚ), (generate_signals data).length = data.length) ∧
    (∀ rsi m20 m50 : Option ℚ, rsi = none → m20 = none ∨ m50 = none →
        rawSignal rsi m20 m50 = 0) ∧
    (∀ (data : List (ℤ × ℚ)) (i : ℕ), i < 13 →
        rsiAt (data.map Prod.snd) i = none ∧
        rollMeanAt 20 (data.map Prod.snd) i = none ∧
        rollMeanAt 50 (data.map Prod.snd) i = none) := by
  refine ⟨?_, ?_, ?_⟩
  · intro data
    rw [generate_signals]
    rw [applyTimeExit, forcedWalkFrom_length]
    simp
  · intro rsi m20 m50 h1 h2
    subst h1
    rcases h2 with h2 | h2 <;> subst h2
    · cases m50 <;> simp [rawSignal, buy_condition, sell_condition, oLT, oGT]
    · cases m20 <;> simp [rawSignal, buy_condition, sell_condition, oLT, oGT]
  · intro data i hi
    refine ⟨?_, ?_, ?_⟩
    · simp [rsiAt, gainMeanAt, if_pos (show i + 1 < 14 by omega)]
    · simp [rollMeanAt, if_pos (show i + 1 < 20 by omega)]
    · simp [rollMeanAt, if_pos (show i + 1 < 50 by omega)]

/-- Witness for `c6_no_rows_dropped`: the three-day series keeps all
three rows; a row with undefined RSI and MA20 gets signal Hold; and at
timestamp 0 all indicators are undefined. -/
theorem c6_no_rows_dropped_witness :
    (generate_signals [(0, 1), (1, 2), (2, 3)]).length =
      ([(0, 1), (1, 2), (2, 3)] : List (ℤ × ℚ)).length ∧
    rawSignal none none (some 5) = 0 ∧
    (rsiAt (([(0, 1), (1, 2), (2, 3)] : List (ℤ × ℚ)).map Prod.snd) 0 = none ∧
     rollMeanAt 20 (([(0, 1), (1, 2), (2, 3)] : List (ℤ × ℚ)).map Prod.snd) 0 = none ∧
     rollMeanAt 50 (([(0, 1), (1, 2), (2, 3)] : List (ℤ × ℚ)).map Prod.snd) 0 = none) :=
  ⟨c6_no_rows_dropped.1 [(0, 1), (1, 2), (2, 3)],
   c6_no_rows_dropped.2.1 none none (some 5) rfl (Or.inl rfl),
   c6_no_rows_dropped.2.2 [(0, 1), (1, 2), (2, 3)] 0 (by decide)⟩

end AlgoTrading
